import Mathlib

/-!
Verification of the guest-physical-memory bookkeeping and vCPU register
marshalling of the hy-rs hypervisor abstraction library.

The definitions below are a shallow embedding of the Rust sources:

* `src/vm.rs`, `src/vcpu.rs`           — the architecture-neutral facade;
* `src/os_impl/linux/{vm,vcpu}.rs`     — the KVM backend;
* `src/os_impl/macos/{vm,vcpu}.rs`     — the Hypervisor.framework (HVF) backend;
* `src/os_impl/windows/vm.rs`          — the Windows Hypervisor Platform backend;
* `src/os_impl/freebsd/{vm,vcpu}.rs`   — the bhyve backend;
* `src/arch/x86_64.rs`                 — the x86-64 register data model.

Machine integers (`u64`, `u32`, `usize`, `u8`) are modelled as `Nat`; the one
place where overflow can occur in the modelled code (computing the end of a
guest-physical range as `guest_address + memory_size`) uses an explicit
`% 2 ^ 64`.  Host API calls (`ioctl`s, `hv_vm_*`, `WHv*`) are modelled by an
oracle parameter: a `Bool` that tells whether the host call succeeds, or a
function producing the values the host returns.  Host virtual addresses are
not modelled; the byte contents of a host mapping are a `List Nat`.
-/

namespace HyRs

/-- The subset of `Error` (src/error.rs) produced by the modelled code paths:
`InvalidGuestAddress`, plus one representative for the wrapped backend-native
host errors (`KvmError`, `HypervisorError`, `WindowsError`, ...). -/
inductive Error where
  | invalidGuestAddress
  | hostError
  deriving DecidableEq, Repr

/-- `ProtectionFlags` (src/vm.rs): the bitflags `READ | WRITE | EXECUTE`,
modelled as one `Bool` per bit. `p.contains(WRITE)` becomes `p.write`. -/
structure ProtectionFlags where
  read : Bool
  write : Bool
  execute : Bool
  deriving DecidableEq, Repr

/-- One stored entry of a `rangemap::RangeMap<u64, u64>`: the half-open range
`[start, end)` together with the stored value, as `(start, end, value)`. -/
abbrev RangeEntry := Nat × Nat × Nat

/-- A `rangemap::RangeMap<u64, u64>`: a list of pairwise disjoint stored
ranges.  (All insertions below go through `rmInsert`, which preserves
disjointness, so the list order is irrelevant for lookups.) -/
abbrev RangeMapU64 := List RangeEntry

/-- `RangeMap::get_key_value(&k)`: the stored range containing the point `k`,
together with its value. -/
def rmGetKeyValue (m : RangeMapU64) (k : Nat) : Option RangeEntry :=
  m.find? (fun e => decide (e.1 ≤ k) && decide (k < e.2.1))

/-- The part of the stored range `e` that lies outside `[lo, hi)`: up to two
truncated pieces.  This is how `rangemap` clips stored ranges on an
overlapping `insert` or on `remove`. -/
def rmClip (lo hi : Nat) (e : RangeEntry) : List RangeEntry :=
  (if e.1 < min e.2.1 lo then [(e.1, min e.2.1 lo, e.2.2)] else []) ++
  (if max e.1 hi < e.2.1 then [(max e.1 hi, e.2.1, e.2.2)] else [])

/-- `RangeMap::insert(lo..hi, v)`: any overlapping parts of stored ranges are
removed (the `rangemap` crate overwrites rather than rejects), then the new
range is stored.  Adjacent coalescing never applies here because each stored
value is the base of its own range. -/
def rmInsert (m : RangeMapU64) (lo hi v : Nat) : RangeMapU64 :=
  (m.flatMap (rmClip lo hi)) ++ [(lo, hi, v)]

/-- `RangeMap::remove(lo..hi)`: clips `[lo, hi)` out of every stored range. -/
def rmRemove (m : RangeMapU64) (lo hi : Nat) : RangeMapU64 :=
  m.flatMap (rmClip lo hi)

/-- `HashMap::get`: association-list lookup keyed on guest base address. -/
def hmGet {α : Type} (m : List (Nat × α)) (k : Nat) : Option α :=
  (m.find? (fun e => e.1 == k)).map Prod.snd

/-- `HashMap::insert`: replaces any existing entry with the same key. -/
def hmInsert {α : Type} (m : List (Nat × α)) (k : Nat) (v : α) : List (Nat × α) :=
  (k, v) :: m.filter (fun e => e.1 != k)

/-- `HashMap::remove`. -/
def hmRemove {α : Type} (m : List (Nat × α)) (k : Nat) : List (Nat × α) :=
  m.filter (fun e => e.1 != k)

/-- `u64` addition (wrapping, as in a release build). -/
def u64add (a b : Nat) : Nat := (a + b) % 2 ^ 64

/-- `KVM_MEM_READONLY` (kvm_bindings). -/
def KVM_MEM_READONLY : Nat := 2

/-- Bitwise complement `!KVM_MEM_READONLY` on the `u32` flags field. -/
def NOT_KVM_MEM_READONLY : Nat := 2 ^ 32 - 1 - KVM_MEM_READONLY

/-- `kvm_userspace_memory_region` (src/os_impl/linux/vm.rs).  The host
virtual address `userspace_addr` is not modelled (always 0). -/
structure KvmRegion where
  slot : Nat
  guest_phys_addr : Nat
  userspace_addr : Nat
  memory_size : Nat
  flags : Nat
  deriving DecidableEq, Repr

/-- `Segment` (src/os_impl/linux/vm.rs): a host mapping plus the KVM region
descriptor.  The mapping's bytes are modelled directly. -/
structure KvmMemSegment where
  mapping : List Nat
  region : KvmRegion
  deriving DecidableEq, Repr

/-- `Vm` (src/os_impl/linux/vm.rs): the KVM backend bookkeeping state. -/
structure LinuxVm where
  segments : List (Nat × KvmMemSegment)
  physical_ranges : RangeMapU64
  available_slots : List Nat
  deriving DecidableEq, Repr

/-- The state `VmBuilder::build` creates (src/os_impl/linux/vm.rs). -/
def linuxVmNew : LinuxVm :=
  { segments := [], physical_ranges := [], available_slots := [] }

/-- `Vm::map_physical_memory` (src/os_impl/linux/vm.rs lines 70-111).
`hostOk` is the outcome of the `set_user_memory_region` ioctl.  Note that the
slot is popped from `available_slots` (the end of the `Vec`) before the host
call, and is not pushed back if the host call fails. -/
def linuxMapPhysicalMemory (vm : LinuxVm) (guest_address : Nat) (mapping : List Nat)
    (protection : ProtectionFlags) (hostOk : Bool) : Except Error Unit × LinuxVm :=
  let flags := if protection.write then 0 else KVM_MEM_READONLY
  let (slot, slots') :=
    match vm.available_slots.getLast? with
    | some slot => (slot, vm.available_slots.dropLast)
    | none => (vm.segments.length, vm.available_slots)
  let memory_size := mapping.length
  let region : KvmRegion :=
    { slot, guest_phys_addr := guest_address, userspace_addr := 0, memory_size, flags }
  let vm' := { vm with available_slots := slots' }
  if hostOk then
    (Except.ok (),
      { vm' with
        segments := hmInsert vm'.segments guest_address { mapping, region },
        physical_ranges :=
          rmInsert vm'.physical_ranges guest_address (u64add guest_address memory_size)
            guest_address })
  else
    (Except.error Error.hostError, vm')

/-- `Vm::allocate_physical_memory` (src/os_impl/linux/vm.rs lines 52-68):
obtains a zero-filled anonymous host mapping of `size` bytes and maps it.
(The `mmap` call itself is assumed to succeed; if it fails the state is
trivially untouched.) -/
def linuxAllocatePhysicalMemory (vm : LinuxVm) (guest_address : Nat) (size : Nat)
    (protection : ProtectionFlags) (hostOk : Bool) : Except Error Unit × LinuxVm :=
  linuxMapPhysicalMemory vm guest_address (List.replicate size 0) protection hostOk

/-- `Vm::unmap_physical_memory` (src/os_impl/linux/vm.rs lines 113-145). -/
def linuxUnmapPhysicalMemory (vm : LinuxVm) (guest_address : Nat) (hostOk : Bool) :
    Except Error Unit × LinuxVm :=
  match rmGetKeyValue vm.physical_ranges guest_address with
  | none => (Except.error Error.invalidGuestAddress, vm)
  | some (lo, hi, _) =>
    match hmGet vm.segments lo with
    | none => (Except.error Error.invalidGuestAddress, vm)
    | some segment =>
      -- region.memory_size = 0; reissue; then drop the bookkeeping.
      if hostOk then
        (Except.ok (),
          { vm with
            segments := hmRemove vm.segments lo,
            physical_ranges := rmRemove vm.physical_ranges lo hi,
            available_slots := vm.available_slots ++ [segment.region.slot] })
      else
        (Except.error Error.hostError, vm)

/-- `Vm::protect_physical_memory` (src/os_impl/linux/vm.rs lines 147-175).
The flags of the stored region are mutated through `get_mut` before the host
call is issued. -/
def linuxProtectPhysicalMemory (vm : LinuxVm) (guest_address : Nat)
    (protection : ProtectionFlags) (hostOk : Bool) : Except Error Unit × LinuxVm :=
  match rmGetKeyValue vm.physical_ranges guest_address with
  | none => (Except.error Error.invalidGuestAddress, vm)
  | some (lo, _hi, _) =>
    match hmGet vm.segments lo with
    | none => (Except.error Error.invalidGuestAddress, vm)
    | some segment =>
      let flags :=
        if protection.write then Nat.land segment.region.flags NOT_KVM_MEM_READONLY
        else Nat.lor segment.region.flags KVM_MEM_READONLY
      let segment' := { segment with region := { segment.region with flags } }
      let vm' := { vm with segments := hmInsert vm.segments lo segment' }
      if hostOk then (Except.ok (), vm') else (Except.error Error.hostError, vm')

/-- `Vm::read_physical_memory` (src/os_impl/linux/vm.rs lines 177-201).
Returns the byte count together with the updated caller buffer. -/
def linuxReadPhysicalMemory (vm : LinuxVm) (bytes : List Nat) (guest_address : Nat) :
    Except Error (Nat × List Nat) :=
  match rmGetKeyValue vm.physical_ranges guest_address with
  | none => Except.error Error.invalidGuestAddress
  | some (lo, hi, _) =>
    match hmGet vm.segments lo with
    | none => Except.error Error.invalidGuestAddress
    | some segment =>
      let offset := guest_address - lo
      let size := min (hi - guest_address) bytes.length
      Except.ok (size, ((segment.mapping.drop offset).take size) ++ bytes.drop size)

/-- `Vm::write_physical_memory` (src/os_impl/linux/vm.rs lines 203-227). -/
def linuxWritePhysicalMemory (vm : LinuxVm) (guest_address : Nat) (bytes : List Nat) :
    Except Error (Nat × LinuxVm) :=
  match rmGetKeyValue vm.physical_ranges guest_address with
  | none => Except.error Error.invalidGuestAddress
  | some (lo, hi, _) =>
    match hmGet vm.segments lo with
    | none => Except.error Error.invalidGuestAddress
    | some segment =>
      let offset := guest_address - lo
      let size := min (hi - guest_address) bytes.length
      let mapping' :=
        segment.mapping.take offset ++ bytes.take size ++ segment.mapping.drop (offset + size)
      Except.ok (size,
        { vm with segments := hmInsert vm.segments lo { segment with mapping := mapping' } })

/-- `Segment` (src/os_impl/macos/vm.rs): just the owned host mapping. -/
structure MacMemSegment where
  mapping : List Nat
  deriving DecidableEq, Repr

/-- `Vm` (src/os_impl/macos/vm.rs): the HVF backend bookkeeping state. -/
structure MacVm where
  physical_ranges : RangeMapU64
  segments : List (Nat × MacMemSegment)
  deriving DecidableEq, Repr

/-- `Vm::map_physical_memory` (src/os_impl/macos/vm.rs lines 70-106).
`hostOk` is the outcome of `hv_vm_map`.  (The HV_MEMORY_* flag computation
only feeds the host call and is not bookkeeping state.) -/
def macMapPhysicalMemory (vm : MacVm) (guest_address : Nat) (mapping : List Nat)
    (_protection : ProtectionFlags) (hostOk : Bool) : Except Error Unit × MacVm :=
  if hostOk then
    (Except.ok (),
      { vm with
        physical_ranges :=
          rmInsert vm.physical_ranges guest_address (u64add guest_address mapping.length)
            guest_address,
        segments := hmInsert vm.segments guest_address { mapping } })
  else
    (Except.error Error.hostError, vm)

/-- `Vm::allocate_physical_memory` (src/os_impl/macos/vm.rs lines 50-68). -/
def macAllocatePhysicalMemory (vm : MacVm) (guest_address : Nat) (size : Nat)
    (protection : ProtectionFlags) (hostOk : Bool) : Except Error Unit × MacVm :=
  macMapPhysicalMemory vm guest_address (List.replicate size 0) protection hostOk

/-- `Vm::unmap_physical_memory` (src/os_impl/macos/vm.rs lines 108-128).
Only the range lookup guards the operation; no segment lookup happens. -/
def macUnmapPhysicalMemory (vm : MacVm) (guest_address : Nat) (hostOk : Bool) :
    Except Error Unit × MacVm :=
  match rmGetKeyValue vm.physical_ranges guest_address with
  | none => (Except.error Error.invalidGuestAddress, vm)
  | some (lo, hi, _) =>
    if hostOk then
      (Except.ok (),
        { vm with
          segments := hmRemove vm.segments lo,
          physical_ranges := rmRemove vm.physical_ranges lo hi })
    else
      (Except.error Error.hostError, vm)

/-- `Vm::protect_physical_memory` (src/os_impl/macos/vm.rs lines 130-160):
range lookup, then `hv_vm_protect`; no bookkeeping change. -/
def macProtectPhysicalMemory (vm : MacVm) (guest_address : Nat)
    (_protection : ProtectionFlags) (hostOk : Bool) : Except Error Unit × MacVm :=
  match rmGetKeyValue vm.physical_ranges guest_address with
  | none => (Except.error Error.invalidGuestAddress, vm)
  | some _ =>
    if hostOk then (Except.ok (), vm) else (Except.error Error.hostError, vm)

/-- `Vm::read_physical_memory` (src/os_impl/macos/vm.rs lines 162-186);
identical to the Linux code. -/
def macReadPhysicalMemory (vm : MacVm) (bytes : List Nat) (guest_address : Nat) :
    Except Error (Nat × List Nat) :=
  match rmGetKeyValue vm.physical_ranges guest_address with
  | none => Except.error Error.invalidGuestAddress
  | some (lo, hi, _) =>
    match hmGet vm.segments lo with
    | none => Except.error Error.invalidGuestAddress
    | some segment =>
      let offset := guest_address - lo
      let size := min (hi - guest_address) bytes.length
      Except.ok (size, ((segment.mapping.drop offset).take size) ++ bytes.drop size)

/-- `Vm::write_physical_memory` (src/os_impl/macos/vm.rs lines 188-212). -/
def macWritePhysicalMemory (vm : MacVm) (guest_address : Nat) (bytes : List Nat) :
    Except Error (Nat × MacVm) :=
  match rmGetKeyValue vm.physical_ranges guest_address with
  | none => Except.error Error.invalidGuestAddress
  | some (lo, hi, _) =>
    match hmGet vm.segments lo with
    | none => Except.error Error.invalidGuestAddress
    | some segment =>
      let offset := guest_address - lo
      let size := min (hi - guest_address) bytes.length
      let mapping' :=
        segment.mapping.take offset ++ bytes.take size ++ segment.mapping.drop (offset + size)
      Except.ok (size,
        { vm with segments := hmInsert vm.segments lo { segment with mapping := mapping' } })

/-- `Vm` (src/os_impl/windows/vm.rs): the WHP backend bookkeeping state.
The shared partition handle is not modelled. -/
structure WinVm where
  segments : List (Nat × List Nat)
  physical_ranges : RangeMapU64
  deriving DecidableEq, Repr

/-- `Vm::map_physical_memory` (src/os_impl/windows/vm.rs lines 95-131);
`hostOk` is the outcome of `WHvMapGpaRange`. -/
def winMapPhysicalMemory (vm : WinVm) (guest_address : Nat) (mapping : List Nat)
    (_protection : ProtectionFlags) (hostOk : Bool) : Except Error Unit × WinVm :=
  let size := mapping.length
  if hostOk then
    (Except.ok (),
      { vm with
        segments := hmInsert vm.segments guest_address mapping,
        physical_ranges :=
          rmInsert vm.physical_ranges guest_address (u64add guest_address size) guest_address })
  else
    (Except.error Error.hostError, vm)

/-- `Vm::allocate_physical_memory` (src/os_impl/windows/vm.rs lines 77-93). -/
def winAllocatePhysicalMemory (vm : WinVm) (guest_address : Nat) (size : Nat)
    (protection : ProtectionFlags) (hostOk : Bool) : Except Error Unit × WinVm :=
  winMapPhysicalMemory vm guest_address (List.replicate size 0) protection hostOk

/-- `Vm::unmap_physical_memory` (src/os_impl/windows/vm.rs lines 133-162). -/
def winUnmapPhysicalMemory (vm : WinVm) (guest_address : Nat) (hostOk : Bool) :
    Except Error Unit × WinVm :=
  match rmGetKeyValue vm.physical_ranges guest_address with
  | none => (Except.error Error.invalidGuestAddress, vm)
  | some (lo, hi, _) =>
    match hmGet vm.segments lo with
    | none => (Except.error Error.invalidGuestAddress, vm)
    | some _segment =>
      if hostOk then
        (Except.ok (),
          { vm with
            segments := hmRemove vm.segments lo,
            physical_ranges := rmRemove vm.physical_ranges lo hi })
      else
        (Except.error Error.hostError, vm)

/-- `Vm::protect_physical_memory` (src/os_impl/windows/vm.rs lines 164-215):
implemented as host unmap followed by host remap with the new flags; the two
host calls get one oracle each.  No bookkeeping change. -/
def winProtectPhysicalMemory (vm : WinVm) (guest_address : Nat)
    (_protection : ProtectionFlags) (hostOk1 hostOk2 : Bool) : Except Error Unit × WinVm :=
  match rmGetKeyValue vm.physical_ranges guest_address with
  | none => (Except.error Error.invalidGuestAddress, vm)
  | some (lo, _hi, _) =>
    match hmGet vm.segments lo with
    | none => (Except.error Error.invalidGuestAddress, vm)
    | some _segment =>
      if hostOk1 then
        if hostOk2 then (Except.ok (), vm) else (Except.error Error.hostError, vm)
      else (Except.error Error.hostError, vm)

/-- `Vm::read_physical_memory` (src/os_impl/windows/vm.rs lines 217-241). -/
def winReadPhysicalMemory (vm : WinVm) (bytes : List Nat) (guest_address : Nat) :
    Except Error (Nat × List Nat) :=
  match rmGetKeyValue vm.physical_ranges guest_address with
  | none => Except.error Error.invalidGuestAddress
  | some (lo, hi, _) =>
    match hmGet vm.segments lo with
    | none => Except.error Error.invalidGuestAddress
    | some segment =>
      let offset := guest_address - lo
      let size := min (hi - guest_address) bytes.length
      Except.ok (size, ((segment.drop offset).take size) ++ bytes.drop size)

/-- `Vm::write_physical_memory` (src/os_impl/windows/vm.rs lines 243-267). -/
def winWritePhysicalMemory (vm : WinVm) (guest_address : Nat) (bytes : List Nat) :
    Except Error (Nat × WinVm) :=
  match rmGetKeyValue vm.physical_ranges guest_address with
  | none => Except.error Error.invalidGuestAddress
  | some (lo, hi, _) =>
    match hmGet vm.segments lo with
    | none => Except.error Error.invalidGuestAddress
    | some segment =>
      let offset := guest_address - lo
      let size := min (hi - guest_address) bytes.length
      let segment' := segment.take offset ++ bytes.take size ++ segment.drop (offset + size)
      Except.ok (size, { vm with segments := hmInsert vm.segments lo segment' })

/-- `Vm` (src/os_impl/freebsd/vm.rs): bhyve keeps only the VM name and the
`/dev/vmm/<name>` file handle; it tracks no guest-physical ranges. -/
structure FreebsdVm where
  name : String
  deriving DecidableEq, Repr

/-- `Vm::unmap_physical_memory` (src/os_impl/freebsd/vm.rs lines 90-95): the
body is `Ok(())` — it never consults the guest address and never fails. -/
def freebsdUnmapPhysicalMemory (vm : FreebsdVm) (_guest_address : Nat) :
    Except Error Unit × FreebsdVm :=
  (Except.ok (), vm)

/-- `Vm::protect_physical_memory` (src/os_impl/freebsd/vm.rs lines 97-103):
the body is `Ok(())`. -/
def freebsdProtectPhysicalMemory (vm : FreebsdVm) (_guest_address : Nat)
    (_protection : ProtectionFlags) : Except Error Unit × FreebsdVm :=
  (Except.ok (), vm)

/-- `Register` (src/arch/x86_64.rs): the general-purpose registers. -/
inductive Register where
  | Rax | Rcx | Rdx | Rbx | Rsp | Rbp | Rsi | Rdi
  | R8 | R9 | R10 | R11 | R12 | R13 | R14 | R15
  | Rip | Rflags
  deriving DecidableEq, Repr

/-- `ControlRegister` (src/arch/x86_64.rs). -/
inductive ControlRegister where
  | Cr0 | Cr1 | Cr2 | Cr3 | Cr4 | Cr8
  deriving DecidableEq, Repr

/-- `SegmentRegister` (src/arch/x86_64.rs). -/
inductive SegmentRegister where
  | Cs | Ds | Es | Fs | Gs | Ss | Tr | Ldt
  deriving DecidableEq, Repr

/-- `Segment` (src/arch/x86_64.rs): the canonical cross-backend segment
description.  Rust's `Default` gives all fields zero/false. -/
structure Segment where
  base : Nat := 0
  limit : Nat := 0
  selector : Nat := 0
  segment_type : Nat := 0
  non_system_segment : Bool := false
  dpl : Nat := 0
  present : Bool := false
  available : Bool := false
  long : Bool := false
  default : Bool := false
  granularity : Bool := false
  deriving DecidableEq, Repr

/-- `MSR_IA32_EFER` (src/arch/x86_64.rs). -/
def MSR_IA32_EFER : Nat := 0xc0000080

/-- `CR4_VMXE` (src/arch/x86_64.rs): `1 << 13`. -/
def CR4_VMXE : Nat := 1 <<< 13

/-- Bitwise complement `!CR4_VMXE` on `u64`. -/
def NOT_CR4_VMXE : Nat := 2 ^ 64 - 1 - CR4_VMXE

/-- `if b { 1 } else { 0 }` — Rust's `bool as u8`/`as u64` cast. -/
def b2n (b : Bool) : Nat := if b then 1 else 0

/-- Pointwise function update, for register files modelled as functions. -/
def updFun {α β : Type} [DecidableEq α] (f : α → β) (k : α) (v : β) : α → β :=
  fun x => if x = k then v else f x

/-- The KVM general-purpose register file (`kvm_regs`): the 18 facade
registers map bijectively onto the struct fields that
`Vcpu::get_regs`/`set_regs` read and write, so the struct is modelled as a
function. -/
abbrev KvmRegs := Register → Nat

/-- `Vcpu::get_registers` (src/os_impl/linux/vcpu.rs lines 43-74): one
`get_regs` host call, then each requested register is read from the struct. -/
def linuxGetRegisters (regs : KvmRegs) (registers : List Register) : List Nat :=
  registers.map regs

/-- The struct update loop of `Vcpu::set_registers`
(src/os_impl/linux/vcpu.rs lines 76-111): `registers.iter().zip(values)`
assigns each zipped pair into the struct fetched by `get_regs`. -/
def kvmApplyRegWrites (regs : KvmRegs) (registers : List Register) (values : List Nat) :
    KvmRegs :=
  (registers.zip values).foldl (fun f p => updFun f p.1 p.2) regs

/-- `Vcpu::set_registers` (src/os_impl/linux/vcpu.rs lines 76-111); the
final `set_regs` host call is modelled as storing the struct. -/
def linuxSetRegisters (regs : KvmRegs) (registers : List Register) (values : List Nat) :
    Except Error KvmRegs :=
  Except.ok (kvmApplyRegWrites regs registers values)

/-- The segment-descriptor part of `kvm_segment` touched by the port:
`base/limit/selector/type_/s/dpl/present/avl/l/db/g`. -/
structure KvmSeg where
  base : Nat := 0
  limit : Nat := 0
  selector : Nat := 0
  type_ : Nat := 0
  s : Nat := 0
  dpl : Nat := 0
  present : Nat := 0
  avl : Nat := 0
  l : Nat := 0
  db : Nat := 0
  g : Nat := 0
  deriving DecidableEq, Repr

/-- The parts of `kvm_sregs` the port reads and writes: the eight segment
descriptors, the control registers, EFER and the descriptor tables. -/
structure KvmSregs where
  segs : SegmentRegister → KvmSeg
  cr0 : Nat := 0
  cr2 : Nat := 0
  cr3 : Nat := 0
  cr4 : Nat := 0
  cr8 : Nat := 0
  efer : Nat := 0
  gdtBase : Nat := 0
  gdtLimit : Nat := 0
  idtBase : Nat := 0
  idtLimit : Nat := 0

/-- The `kvm_segment` → `Segment` conversion in `Vcpu::get_segment_registers`
(src/os_impl/linux/vcpu.rs lines 258-271). -/
def kvmDecodeSeg (seg : KvmSeg) : Segment :=
  { base := seg.base, limit := seg.limit, selector := seg.selector,
    segment_type := seg.type_,
    non_system_segment := seg.s != 0,
    dpl := seg.dpl,
    present := seg.present != 0,
    available := seg.avl != 0,
    long := seg.l != 0,
    default := seg.db != 0,
    granularity := seg.g != 0 }

/-- The `Segment` → `kvm_segment` field assignments in
`Vcpu::set_segment_registers` (src/os_impl/linux/vcpu.rs lines 297-307). -/
def kvmEncodeSeg (value : Segment) : KvmSeg :=
  { base := value.base, limit := value.limit, selector := value.selector,
    type_ := value.segment_type, s := b2n value.non_system_segment,
    dpl := value.dpl, present := b2n value.present, avl := b2n value.available,
    l := b2n value.long, db := b2n value.default, g := b2n value.granularity }

/-- `Vcpu::get_segment_registers` (src/os_impl/linux/vcpu.rs lines 239-276). -/
def linuxGetSegmentRegisters (sregs : KvmSregs) (registers : List SegmentRegister) :
    List Segment :=
  registers.map (fun register => kvmDecodeSeg (sregs.segs register))

/-- `Vcpu::set_segment_registers` (src/os_impl/linux/vcpu.rs lines 278-313):
fetch `sregs`, assign each zipped pair, store `sregs`. -/
def linuxSetSegmentRegisters (sregs : KvmSregs) (registers : List SegmentRegister)
    (values : List Segment) : KvmSregs :=
  { sregs with
    segs := (registers.zip values).foldl (fun f p => updFun f p.1 (kvmEncodeSeg p.2)) sregs.segs }

/-- The `enumerate` loop of `Vcpu::get_msrs` (src/os_impl/linux/vcpu.rs lines
163-175), started at position `i`: non-EFER MSR numbers are pushed onto
the entries list (first component), the positions where `MSR_IA32_EFER` was
requested onto the indices list (second component, in increasing order). -/
def kvmMsrSplit : List Nat → Nat → List Nat × List Nat
  | [], _ => ([], [])
  | r :: rs, i =>
    if r = MSR_IA32_EFER then
      ((kvmMsrSplit rs (i + 1)).1, i :: (kvmMsrSplit rs (i + 1)).2)
    else
      (r :: (kvmMsrSplit rs (i + 1)).1, (kvmMsrSplit rs (i + 1)).2)

/-- `Vcpu::get_msrs` (src/os_impl/linux/vcpu.rs lines 159-200).  `hostMsr`
models the batched `get_msrs` ioctl (one `data` per requested entry, in entry
order) and `eferValue` models `sregs.efer`; the saved EFER positions are then
re-inserted with `Vec::insert`. -/
def linuxGetMsrs (hostMsr : Nat → Nat) (eferValue : Nat) (registers : List Nat) : List Nat :=
  (kvmMsrSplit registers 0).2.foldl
    (fun values index => values.insertIdx index eferValue)
    ((kvmMsrSplit registers 0).1.map hostMsr)

/-- The loop of `Vcpu::set_msrs` (src/os_impl/linux/vcpu.rs lines 210-220):
non-EFER pairs are pushed as batched entries, each EFER value overwrites the
`efer` option. -/
def kvmSetMsrsLoop :
    List (Nat × Nat) → List (Nat × Nat) → Option Nat → List (Nat × Nat) × Option Nat
  | [], entries, efer => (entries, efer)
  | (r, v) :: ps, entries, efer =>
    if r = MSR_IA32_EFER then kvmSetMsrsLoop ps entries (some v)
    else kvmSetMsrsLoop ps (entries ++ [(r, v)]) efer

/-- `Vcpu::set_msrs` (src/os_impl/linux/vcpu.rs lines 202-237): returns the
entries handed to the batched `set_msrs` ioctl together with the value
written to `sregs.efer` (if EFER was requested). -/
def linuxSetMsrs (registers : List Nat) (values : List Nat) :
    List (Nat × Nat) × Option Nat :=
  kvmSetMsrsLoop (registers.zip values) [] none

/-- The `hv_x86_reg_t` registers used by the HVF port. -/
inductive HvReg where
  | RAX | RCX | RDX | RBX | RSP | RBP | RSI | RDI
  | R8 | R9 | R10 | R11 | R12 | R13 | R14 | R15
  | RIP | RFLAGS
  | CR0 | CR1 | CR2 | CR3 | CR4
  deriving DecidableEq, Repr

/-- The `Register` → `hv_x86_reg_t` table of the HVF port
(src/os_impl/macos/vcpu.rs lines 217-236 and 250-269). -/
def regToHvReg : Register → HvReg
  | .Rax => .RAX
  | .Rcx => .RCX
  | .Rdx => .RDX
  | .Rbx => .RBX
  | .Rsp => .RSP
  | .Rbp => .RBP
  | .Rsi => .RSI
  | .Rdi => .RDI
  | .R8 => .R8
  | .R9 => .R9
  | .R10 => .R10
  | .R11 => .R11
  | .R12 => .R12
  | .R13 => .R13
  | .R14 => .R14
  | .R15 => .R15
  | .Rip => .RIP
  | .Rflags => .RFLAGS

/-- The HVF per-vCPU register file written through
`hv_vcpu_write_register` and read through `hv_vcpu_read_register`. -/
abbrev HvRegFile := HvReg → Nat

/-- `Vcpu::get_registers` (src/os_impl/macos/vcpu.rs lines 210-242). -/
def macosGetRegisters (f : HvRegFile) (registers : List Register) : List Nat :=
  registers.map (fun register => f (regToHvReg register))

/-- `Vcpu::set_registers` (src/os_impl/macos/vcpu.rs lines 244-275): one
`hv_vcpu_write_register` per zipped pair (modelled as always succeeding). -/
def macosSetRegisters (f : HvRegFile) (registers : List Register) (values : List Nat) :
    Except Error HvRegFile :=
  Except.ok ((registers.zip values).foldl (fun f p => updFun f (regToHvReg p.1) p.2) f)

/-- The `ControlRegister` → `hv_x86_reg_t` table of
`Vcpu::get_control_registers` (src/os_impl/macos/vcpu.rs lines 284-294):
`Cr8` has no HVF register — the port pushes `0` and continues. -/
def crToHvReg : ControlRegister → Option HvReg
  | .Cr0 => some .CR0
  | .Cr1 => some .CR1
  | .Cr2 => some .CR2
  | .Cr3 => some .CR3
  | .Cr4 => some .CR4
  | .Cr8 => none

/-- `Vcpu::get_control_registers` (src/os_impl/macos/vcpu.rs lines 277-308):
CR4 reads are masked with `!CR4_VMXE`. -/
def macosGetControlRegisters (f : HvRegFile) (registers : List ControlRegister) : List Nat :=
  registers.foldl
    (fun values register =>
      match crToHvReg register with
      | none => values ++ [0]
      | some hv =>
        let value := f hv
        let value := if hv = HvReg.CR4 then Nat.land value NOT_CR4_VMXE else value
        values ++ [value])
    []

/-- `Vcpu::set_control_registers` (src/os_impl/macos/vcpu.rs lines 310-336):
CR4 writes get `CR4_VMXE` forced on; `Cr8` writes are skipped. -/
def macosSetControlRegisters (f : HvRegFile) (registers : List ControlRegister)
    (values : List Nat) : HvRegFile :=
  (registers.zip values).foldl
    (fun f p =>
      match p.1 with
      | .Cr8 => f
      | .Cr4 => updFun f HvReg.CR4 (Nat.lor p.2 CR4_VMXE)
      | .Cr0 => updFun f HvReg.CR0 p.2
      | .Cr1 => updFun f HvReg.CR1 p.2
      | .Cr2 => updFun f HvReg.CR2 p.2
      | .Cr3 => updFun f HvReg.CR3 p.2)
    f

/-- The four VMCS guest fields of one segment register
(`GuestXx`, `GuestXxBase`, `GuestXxLimit`, `GuestXxAccessRights`). -/
structure MacVmcsSeg where
  selector : Nat := 0
  base : Nat := 0
  limit : Nat := 0
  accessRights : Nat := 0
  deriving DecidableEq, Repr

/-- The segment-register part of the VMCS, one `MacVmcsSeg` per register. -/
abbrev MacVmcsSegs := SegmentRegister → MacVmcsSeg

/-- The access-rights encoding of `Vcpu::set_segment_registers`
(src/os_impl/macos/vcpu.rs lines 530-538):
`type[3:0] | S<<4 | DPL<<5 | P<<7 | AVL<<12 | L<<13 | DB<<14 | G<<15`. -/
def macosEncodeAccessRights (segment : Segment) : Nat :=
  Nat.lor (Nat.land segment.segment_type 0xf)
    (Nat.lor (b2n segment.non_system_segment <<< 4)
      (Nat.lor (Nat.land segment.dpl 0x3 <<< 5)
        (Nat.lor (b2n segment.present <<< 7)
          (Nat.lor (b2n segment.available <<< 12)
            (Nat.lor (b2n segment.long <<< 13)
              (Nat.lor (b2n segment.default <<< 14)
                (b2n segment.granularity <<< 15)))))))

/-- `Vcpu::set_segment_registers` (src/os_impl/macos/vcpu.rs lines 469-544):
writes selector, base, limit and the encoded access rights into the VMCS. -/
def macosSetSegmentRegisters (g : MacVmcsSegs) (registers : List SegmentRegister)
    (values : List Segment) : MacVmcsSegs :=
  (registers.zip values).foldl
    (fun g p =>
      updFun g p.1
        { selector := p.2.selector, base := p.2.base, limit := p.2.limit,
          accessRights := macosEncodeAccessRights p.2 })
    g

/-- The access-rights decoding of `Vcpu::get_segment_registers`
(src/os_impl/macos/vcpu.rs lines 446-463). -/
def macosDecodeSeg (s : MacVmcsSeg) : Segment :=
  { base := s.base,
    limit := s.limit % 2 ^ 32,
    selector := s.selector % 2 ^ 16,
    segment_type := Nat.land s.accessRights 0xf,
    non_system_segment := Nat.land (s.accessRights >>> 4) 0x1 == 0x1,
    dpl := Nat.land (s.accessRights >>> 5) 0x3,
    present := Nat.land (s.accessRights >>> 7) 0x1 == 0x1,
    available := Nat.land (s.accessRights >>> 12) 0x1 == 0x1,
    long := Nat.land (s.accessRights >>> 13) 0x1 == 0x1,
    default := Nat.land (s.accessRights >>> 14) 0x1 == 0x1,
    granularity := Nat.land (s.accessRights >>> 15) 0x1 == 0x1 }

/-- `Vcpu::get_segment_registers` (src/os_impl/macos/vcpu.rs lines 388-467). -/
def macosGetSegmentRegisters (g : MacVmcsSegs) (registers : List SegmentRegister) :
    List Segment :=
  registers.map (fun register => macosDecodeSeg (g register))

/-- The `vm_reg_name` segment registers used by the bhyve port. -/
inductive BhyveSegReg where
  | CS | DS | ES | FS | GS | SS | TR | LDTR
  deriving DecidableEq, Repr

/-- The `SegmentRegister` → `vm_reg_name` table
(src/os_impl/freebsd/vcpu.rs lines 274-283). -/
def segRegToBhyve : SegmentRegister → BhyveSegReg
  | .Cs => .CS
  | .Ds => .DS
  | .Es => .ES
  | .Fs => .FS
  | .Gs => .GS
  | .Ss => .SS
  | .Tr => .TR
  | .Ldt => .LDTR

/-- A bhyve `seg_desc`. -/
structure BhyveSegDesc where
  base : Nat := 0
  limit : Nat := 0
  access : Nat := 0
  deriving DecidableEq, Repr

/-- The `seg_desc` → `Segment` decoding of the bhyve
`Vcpu::get_segment_registers` (src/os_impl/freebsd/vcpu.rs lines 288-300). -/
def bhyveDecodeSeg (selector : Nat) (descriptor : BhyveSegDesc) : Segment :=
  { base := descriptor.base,
    limit := descriptor.limit,
    selector := selector % 2 ^ 16,
    segment_type := Nat.land descriptor.access 0xf,
    non_system_segment := Nat.land (descriptor.access >>> 4) 0x1 == 0x1,
    dpl := Nat.land (descriptor.access >>> 5) 0x3,
    present := Nat.land (descriptor.access >>> 7) 0x1 == 0x1,
    available := Nat.land (descriptor.access >>> 12) 0x1 == 0x1,
    long := Nat.land (descriptor.access >>> 13) 0x1 == 0x1,
    default := Nat.land (descriptor.access >>> 14) 0x1 == 0x1,
    granularity := Nat.land (descriptor.access >>> 15) 0x1 == 0x1 }

/-- `Vcpu::get_segment_registers` of the bhyve port
(src/os_impl/freebsd/vcpu.rs lines 267-304).  The host oracles model
`VM_GET_REGISTER` (selector) and `VM_GET_SEGMENT_DESCRIPTOR`.  The loop
builds `segments`, one decoded `Segment` per requested register — and then
the function returns `Ok(vec![])`, discarding the list it just built. -/
def freebsdGetSegmentRegisters (hostSelector : BhyveSegReg → Nat)
    (hostDescriptor : BhyveSegReg → BhyveSegDesc) (registers : List SegmentRegister) :
    Except Error (List Segment) :=
  let segments := registers.map (fun register =>
    let regnum := segRegToBhyve register
    bhyveDecodeSeg (hostSelector regnum) (hostDescriptor regnum))
  let _ := segments
  Except.ok []

/-- The code segment the facade reset writes (src/vcpu.rs lines 61-69):
note `limit: 0xffff`. -/
def resetCodeSegment : Segment :=
  { base := 0xffff0000, limit := 0xffff, selector := 0xf000, segment_type := 0xa,
    non_system_segment := true, present := true }

/-- The data segment the facade reset writes (src/vcpu.rs lines 71-77). -/
def resetDataSegment : Segment :=
  { limit := 0xffff, segment_type := 0x3, non_system_segment := true, present := true }

/-- The `(register, value)` pairs of the facade reset (src/vcpu.rs lines
51-54), unzipped and handed to `set_registers`. -/
def resetRegisterPairs : List (Register × Nat) :=
  [(Register.Rip, 0xfff0), (Register.Rflags, 0x0002)]

/-- The `(segment register, segment)` pairs of the facade reset
(src/vcpu.rs lines 79-86). -/
def resetSegmentPairs : List (SegmentRegister × Segment) :=
  [(SegmentRegister.Cs, resetCodeSegment),
   (SegmentRegister.Ss, resetDataSegment),
   (SegmentRegister.Ds, resetDataSegment),
   (SegmentRegister.Es, resetDataSegment),
   (SegmentRegister.Fs, resetDataSegment),
   (SegmentRegister.Gs, resetDataSegment)]

/-- `Vcpu::reset` (src/vcpu.rs lines 48-93) running on the KVM backend:
`set_registers` on the unzipped register pairs, then
`set_segment_registers` on the unzipped segment pairs. -/
def facadeResetKvm (regs : KvmRegs) (sregs : KvmSregs) : KvmRegs × KvmSregs :=
  let (registers, values) := resetRegisterPairs.unzip
  let regs' := kvmApplyRegWrites regs registers values
  let (registers, segments) := resetSegmentPairs.unzip
  (regs', linuxSetSegmentRegisters sregs registers segments)

/-- `Vcpu::reset` (src/vcpu.rs lines 48-93) running on the HVF backend. -/
def facadeResetMacos (f : HvRegFile) (g : MacVmcsSegs) : HvRegFile × MacVmcsSegs :=
  let (registers, values) := resetRegisterPairs.unzip
  let f' := (registers.zip values).foldl (fun f p => updFun f (regToHvReg p.1) p.2) f
  let (registers, segments) := resetSegmentPairs.unzip
  (f', macosSetSegmentRegisters g registers segments)

/-! ### Helper lemmas -/

theorem rmGetKeyValue_eq_none {m : RangeMapU64} {k : Nat}
    (h : ∀ e ∈ m, ¬(e.1 ≤ k ∧ k < e.2.1)) : rmGetKeyValue m k = none := by
  apply List.find?_eq_none.mpr
  intro e he
  simp only [Bool.and_eq_true, decide_eq_true_eq]
  exact fun hc => h e he hc

theorem linuxUnmap_not_covered {vm : LinuxVm} {gpa : Nat} (hostOk : Bool)
    (h : rmGetKeyValue vm.physical_ranges gpa = none) :
    linuxUnmapPhysicalMemory vm gpa hostOk = (Except.error Error.invalidGuestAddress, vm) := by
  unfold linuxUnmapPhysicalMemory
  rw [h]

theorem linuxProtect_not_covered {vm : LinuxVm} {gpa : Nat} (prot : ProtectionFlags)
    (hostOk : Bool) (h : rmGetKeyValue vm.physical_ranges gpa = none) :
    linuxProtectPhysicalMemory vm gpa prot hostOk = (Except.error Error.invalidGuestAddress, vm) := by
  unfold linuxProtectPhysicalMemory
  rw [h]

theorem linuxRead_not_covered {vm : LinuxVm} {gpa : Nat} (bytes : List Nat)
    (h : rmGetKeyValue vm.physical_ranges gpa = none) :
    linuxReadPhysicalMemory vm bytes gpa = Except.error Error.invalidGuestAddress := by
  unfold linuxReadPhysicalMemory
  rw [h]

theorem linuxWrite_not_covered {vm : LinuxVm} {gpa : Nat} (bytes : List Nat)
    (h : rmGetKeyValue vm.physical_ranges gpa = none) :
    linuxWritePhysicalMemory vm gpa bytes = Except.error Error.invalidGuestAddress := by
  unfold linuxWritePhysicalMemory
  rw [h]

theorem macUnmap_not_covered {vm : MacVm} {gpa : Nat} (hostOk : Bool)
    (h : rmGetKeyValue vm.physical_ranges gpa = none) :
    macUnmapPhysicalMemory vm gpa hostOk = (Except.error Error.invalidGuestAddress, vm) := by
  unfold macUnmapPhysicalMemory
  rw [h]

theorem macProtect_not_covered {vm : MacVm} {gpa : Nat} (prot : ProtectionFlags)
    (hostOk : Bool) (h : rmGetKeyValue vm.physical_ranges gpa = none) :
    macProtectPhysicalMemory vm gpa prot hostOk = (Except.error Error.invalidGuestAddress, vm) := by
  unfold macProtectPhysicalMemory
  rw [h]

theorem macRead_not_covered {vm : MacVm} {gpa : Nat} (bytes : List Nat)
    (h : rmGetKeyValue vm.physical_ranges gpa = none) :
    macReadPhysicalMemory vm bytes gpa = Except.error Error.invalidGuestAddress := by
  unfold macReadPhysicalMemory
  rw [h]

theorem macWrite_not_covered {vm : MacVm} {gpa : Nat} (bytes : List Nat)
    (h : rmGetKeyValue vm.physical_ranges gpa = none) :
    macWritePhysicalMemory vm gpa bytes = Except.error Error.invalidGuestAddress := by
  unfold macWritePhysicalMemory
  rw [h]

theorem winUnmap_not_covered {vm : WinVm} {gpa : Nat} (hostOk : Bool)
    (h : rmGetKeyValue vm.physical_ranges gpa = none) :
    winUnmapPhysicalMemory vm gpa hostOk = (Except.error Error.invalidGuestAddress, vm) := by
  unfold winUnmapPhysicalMemory
  rw [h]

theorem winProtect_not_covered {vm : WinVm} {gpa : Nat} (prot : ProtectionFlags)
    (hostOk1 hostOk2 : Bool) (h : rmGetKeyValue vm.physical_ranges gpa = none) :
    winProtectPhysicalMemory vm gpa prot hostOk1 hostOk2 =
      (Except.error Error.invalidGuestAddress, vm) := by
  unfold winProtectPhysicalMemory
  rw [h]

theorem winRead_not_covered {vm : WinVm} {gpa : Nat} (bytes : List Nat)
    (h : rmGetKeyValue vm.physical_ranges gpa = none) :
    winReadPhysicalMemory vm bytes gpa = Except.error Error.invalidGuestAddress := by
  unfold winReadPhysicalMemory
  rw [h]

theorem winWrite_not_covered {vm : WinVm} {gpa : Nat} (bytes : List Nat)
    (h : rmGetKeyValue vm.physical_ranges gpa = none) :
    winWritePhysicalMemory vm gpa bytes = Except.error Error.invalidGuestAddress := by
  unfold winWritePhysicalMemory
  rw [h]

/-! ### Claims -/

/-- C1 (amended): for a guest physical address `gpa` contained in no mapped
range, `unmap_physical_memory`, `protect_physical_memory`,
`read_physical_memory` and `write_physical_memory` all fail with
`InvalidGuestAddress` — on the KVM, HVF and WHP backends (leaving the VM
state unchanged).  The bhyve backend is the exception the original claim
misses: its unmap/protect are unconditional `Ok(())` stubs (see the
counterexample) and it provides no read/write helpers. -/
theorem C1_unmapped_gpa_rejected
    (vmL : LinuxVm) (vmM : MacVm) (vmW : WinVm) (gpa : Nat) (bytes : List Nat)
    (prot : ProtectionFlags) (hostOk hostOk2 : Bool)
    (hL : ∀ e ∈ vmL.physical_ranges, ¬(e.1 ≤ gpa ∧ gpa < e.2.1))
    (hM : ∀ e ∈ vmM.physical_ranges, ¬(e.1 ≤ gpa ∧ gpa < e.2.1))
    (hW : ∀ e ∈ vmW.physical_ranges, ¬(e.1 ≤ gpa ∧ gpa < e.2.1)) :
    linuxUnmapPhysicalMemory vmL gpa hostOk = (Except.error Error.invalidGuestAddress, vmL) ∧
    linuxProtectPhysicalMemory vmL gpa prot hostOk =
      (Except.error Error.invalidGuestAddress, vmL) ∧
    linuxReadPhysicalMemory vmL bytes gpa = Except.error Error.invalidGuestAddress ∧
    linuxWritePhysicalMemory vmL gpa bytes = Except.error Error.invalidGuestAddress ∧
    macUnmapPhysicalMemory vmM gpa hostOk = (Except.error Error.invalidGuestAddress, vmM) ∧
    macProtectPhysicalMemory vmM gpa prot hostOk =
      (Except.error Error.invalidGuestAddress, vmM) ∧
    macReadPhysicalMemory vmM bytes gpa = Except.error Error.invalidGuestAddress ∧
    macWritePhysicalMemory vmM gpa bytes = Except.error Error.invalidGuestAddress ∧
    winUnmapPhysicalMemory vmW gpa hostOk = (Except.error Error.invalidGuestAddress, vmW) ∧
    winProtectPhysicalMemory vmW gpa prot hostOk hostOk2 =
      (Except.error Error.invalidGuestAddress, vmW) ∧
    winReadPhysicalMemory vmW bytes gpa = Except.error Error.invalidGuestAddress ∧
    winWritePhysicalMemory vmW gpa bytes = Except.error Error.invalidGuestAddress := by
  have hL' := rmGetKeyValue_eq_none hL
  have hM' := rmGetKeyValue_eq_none hM
  have hW' := rmGetKeyValue_eq_none hW
  exact ⟨linuxUnmap_not_covered _ hL', linuxProtect_not_covered _ _ hL',
    linuxRead_not_covered _ hL', linuxWrite_not_covered _ hL',
    macUnmap_not_covered _ hM', macProtect_not_covered _ _ hM',
    macRead_not_covered _ hM', macWrite_not_covered _ hM',
    winUnmap_not_covered _ hW', winProtect_not_covered _ _ _ hW',
    winRead_not_covered _ hW', winWrite_not_covered _ hW'⟩

/-- C1, witness: on an empty KVM VM the address `0x1000` is covered by no
range, and unmap fails with `InvalidGuestAddress`. -/
theorem C1_unmapped_gpa_rejected_witness :
    (∀ e ∈ linuxVmNew.physical_ranges, ¬(e.1 ≤ 0x1000 ∧ 0x1000 < e.2.1)) ∧
    linuxUnmapPhysicalMemory linuxVmNew 0x1000 true =
      (Except.error Error.invalidGuestAddress, linuxVmNew) :=
  ⟨(by intro e he; cases he),
   (C1_unmapped_gpa_rejected linuxVmNew { physical_ranges := [], segments := [] }
      { segments := [], physical_ranges := [] } 0x1000 [] { read := true, write := true, execute := false }
      true true (by intro e he; cases he) (by intro e he; cases he)
      (by intro e he; cases he)).1⟩

/-- C1, counterexample to the claim as stated: on the bhyve backend — whose
`Vm` tracks no guest-physical ranges at all, so no address is within a
mapped range — `unmap_physical_memory(0)` and `protect_physical_memory(0, prot)`
return `Ok(())` instead of failing with `InvalidGuestAddress`. -/
theorem C1_unmapped_gpa_rejected_counterexample :
    (freebsdUnmapPhysicalMemory { name := "vm" } 0).1 ≠
      Except.error Error.invalidGuestAddress ∧
    (freebsdProtectPhysicalMemory { name := "vm" } 0
        { read := true, write := true, execute := true }).1 ≠
      Except.error Error.invalidGuestAddress := by
  exact ⟨fun h => Except.noConfusion h, fun h => Except.noConfusion h⟩

/-- C3: the claim says a failed `map_physical_memory` rolls the KVM slot
free-list back.  Evaluating the code at the failing input: a VM whose free
list holds slot 5, and a `map_physical_memory` whose
`set_user_memory_region` host call fails.  The call returns the host error,
but the free list is left empty — the popped slot is never pushed back, so
the bookkeeping state differs from the state before the call. -/
theorem C3_failed_map_leaks_slot :
    linuxMapPhysicalMemory
        { segments := [], physical_ranges := [], available_slots := [5] }
        0x1000 (List.replicate 0x10 0) { read := true, write := true, execute := false }
        false =
      (Except.error Error.hostError,
        { segments := [], physical_ranges := [], available_slots := [] }) ∧
    ({ segments := [], physical_ranges := [], available_slots := [] } : LinuxVm) ≠
      { segments := [], physical_ranges := [], available_slots := [5] } := by
  exact ⟨rfl, by decide⟩

/-- C4 (amended): `unmap_physical_memory(gpa)` fails with
`InvalidGuestAddress` exactly when `gpa` is contained in no mapped range.
A `gpa` strictly inside a mapped region `[base, base+size)` — not just the
base — resolves through the interval map to the containing region's base
and unmaps that whole region (KVM, HVF and WHP backends alike), contrary to
the claim's "rejected rather than unmapping the containing region". -/
theorem C4_unmap_resolves_middle_addresses
    (vmU : LinuxVm) (vmUM : MacVm) (vmUW : WinVm) (gpaU : Nat) (hostOk : Bool)
    (vmL : LinuxVm) (gpaL loL hiL vL : Nat) (segL : KvmMemSegment)
    (vmM : MacVm) (gpaM loM hiM vM : Nat)
    (vmW : WinVm) (gpaW loW hiW vW : Nat) (segW : List Nat)
    (hUL : ∀ e ∈ vmU.physical_ranges, ¬(e.1 ≤ gpaU ∧ gpaU < e.2.1))
    (hUM : ∀ e ∈ vmUM.physical_ranges, ¬(e.1 ≤ gpaU ∧ gpaU < e.2.1))
    (hUW : ∀ e ∈ vmUW.physical_ranges, ¬(e.1 ≤ gpaU ∧ gpaU < e.2.1))
    (hL1 : rmGetKeyValue vmL.physical_ranges gpaL = some (loL, hiL, vL))
    (hL2 : hmGet vmL.segments loL = some segL)
    (hM1 : rmGetKeyValue vmM.physical_ranges gpaM = some (loM, hiM, vM))
    (hW1 : rmGetKeyValue vmW.physical_ranges gpaW = some (loW, hiW, vW))
    (hW2 : hmGet vmW.segments loW = some segW) :
    linuxUnmapPhysicalMemory vmU gpaU hostOk = (Except.error Error.invalidGuestAddress, vmU) ∧
    macUnmapPhysicalMemory vmUM gpaU hostOk = (Except.error Error.invalidGuestAddress, vmUM) ∧
    winUnmapPhysicalMemory vmUW gpaU hostOk = (Except.error Error.invalidGuestAddress, vmUW) ∧
    linuxUnmapPhysicalMemory vmL gpaL true =
      (Except.ok (),
        { vmL with
          segments := hmRemove vmL.segments loL,
          physical_ranges := rmRemove vmL.physical_ranges loL hiL,
          available_slots := vmL.available_slots ++ [segL.region.slot] }) ∧
    macUnmapPhysicalMemory vmM gpaM true =
      (Except.ok (),
        { vmM with
          segments := hmRemove vmM.segments loM,
          physical_ranges := rmRemove vmM.physical_ranges loM hiM }) ∧
    winUnmapPhysicalMemory vmW gpaW true =
      (Except.ok (),
        { vmW with
          segments := hmRemove vmW.segments loW,
          physical_ranges := rmRemove vmW.physical_ranges loW hiW }) := by
  refine ⟨linuxUnmap_not_covered _ (rmGetKeyValue_eq_none hUL),
    macUnmap_not_covered _ (rmGetKeyValue_eq_none hUM),
    winUnmap_not_covered _ (rmGetKeyValue_eq_none hUW), ?_, ?_, ?_⟩
  · unfold linuxUnmapPhysicalMemory
    simp [hL1, hL2]
  · unfold macUnmapPhysicalMemory
    simp [hM1]
  · unfold winUnmapPhysicalMemory
    simp [hW1, hW2]

/-- C4, witness: a VM with the single region `[0x10, 0x30)`; the middle
address `0x20` is accepted by unmap and removes the whole region, returning
the slot to the free list. -/
theorem C4_unmap_resolves_middle_addresses_witness :
    (rmGetKeyValue [(0x10, 0x30, 0x10)] 0x20 = some (0x10, 0x30, 0x10)) ∧
    linuxUnmapPhysicalMemory
        { segments :=
            [(0x10,
              { mapping := List.replicate 0x20 0,
                region :=
                  { slot := 0, guest_phys_addr := 0x10, userspace_addr := 0,
                    memory_size := 0x20, flags := 0 } })],
          physical_ranges := [(0x10, 0x30, 0x10)],
          available_slots := [] }
        0x20 true =
      (Except.ok (),
        { segments := [], physical_ranges := [], available_slots := [0] }) := by
  constructor
  · rfl
  · have h :=
      (C4_unmap_resolves_middle_addresses
        linuxVmNew { physical_ranges := [], segments := [] } { segments := [], physical_ranges := [] }
        0 true
        { segments :=
            [(0x10,
              { mapping := List.replicate 0x20 0,
                region :=
                  { slot := 0, guest_phys_addr := 0x10, userspace_addr := 0,
                    memory_size := 0x20, flags := 0 } })],
          physical_ranges := [(0x10, 0x30, 0x10)],
          available_slots := [] }
        0x20 0x10 0x30 0x10
        { mapping := List.replicate 0x20 0,
          region :=
            { slot := 0, guest_phys_addr := 0x10, userspace_addr := 0,
              memory_size := 0x20, flags := 0 } }
        { physical_ranges := [(0x10, 0x30, 0x10)], segments := [(0x10, { mapping := [] })] }
        0x20 0x10 0x30 0x10
        { segments := [(0x10, [])], physical_ranges := [(0x10, 0x30, 0x10)] }
        0x20 0x10 0x30 0x10 []
        (by intro e he; cases he) (by intro e he; cases he) (by intro e he; cases he)
        rfl rfl rfl rfl rfl).2.2.2.1
    rw [h]
    rfl

/-- C4, counterexample to the claim as stated: with `[0x10, 0x30)` mapped,
the KVM `unmap_physical_memory(0x20)` — where `0x20` is not the base but
strictly inside the region — returns `Ok(())` instead of failing with
`InvalidGuestAddress`. -/
theorem C4_unmap_resolves_middle_addresses_counterexample :
    (linuxUnmapPhysicalMemory
        { segments :=
            [(0x10,
              { mapping := List.replicate 0x20 0,
                region :=
                  { slot := 0, guest_phys_addr := 0x10, userspace_addr := 0,
                    memory_size := 0x20, flags := 0 } })],
          physical_ranges := [(0x10, 0x30, 0x10)],
          available_slots := [] }
        0x20 true).1 = Except.ok () ∧
    (0x10 : Nat) < 0x20 ∧ (0x20 : Nat) < 0x10 + 0x20 := by
  exact ⟨rfl, by decide, by decide⟩

/-- C9: evaluating the bhyve `get_segment_registers` at the failing input —
a request for `[Cs]` with arbitrary host answers.  The loop decodes one
segment per requested register, but the function returns `Ok(vec![])`:
the empty vector, not the filled list of length 1 required by the claim. -/
theorem C9_freebsd_segment_registers_empty :
    freebsdGetSegmentRegisters (fun _ => 0) (fun _ => {}) [SegmentRegister.Cs] =
      Except.ok [] ∧
    ([] : List Segment).length ≠ [SegmentRegister.Cs].length := by
  exact ⟨rfl, by decide⟩

/-- C2: evaluating the code at the failing input.  After
`allocate_physical_memory(0, 0x20)`, a second
`allocate_physical_memory(0x10, 0x20)` overlapping the live region is
accepted whenever the host map call accepts it (WHP does): it returns
`Ok(())`, the interval map silently truncates the first segment's range to
`[0, 0x10)`, and both segments stay live — no overlap rejection exists in
the library.  The KVM `map_physical_memory` shows the same acceptance. -/
theorem C2_overlapping_allocate_accepted :
    (winAllocatePhysicalMemory { segments := [], physical_ranges := [] } 0 0x20
        { read := true, write := true, execute := false } true).1 = Except.ok () ∧
    (winAllocatePhysicalMemory
        (winAllocatePhysicalMemory { segments := [], physical_ranges := [] } 0 0x20
          { read := true, write := true, execute := false } true).2
        0x10 0x20 { read := true, write := true, execute := false } true).1 =
      Except.ok () ∧
    (winAllocatePhysicalMemory
        (winAllocatePhysicalMemory { segments := [], physical_ranges := [] } 0 0x20
          { read := true, write := true, execute := false } true).2
        0x10 0x20 { read := true, write := true, execute := false } true).2.physical_ranges =
      [(0, 0x10, 0), (0x10, 0x30, 0x10)] ∧
    ((winAllocatePhysicalMemory
        (winAllocatePhysicalMemory { segments := [], physical_ranges := [] } 0 0x20
          { read := true, write := true, execute := false } true).2
        0x10 0x20 { read := true, write := true, execute := false } true).2.segments.map
      Prod.fst) = [0x10, 0] ∧
    (linuxMapPhysicalMemory
        (linuxAllocatePhysicalMemory linuxVmNew 0 0x20
          { read := true, write := true, execute := false } true).2
        0x10 (List.replicate 0x20 0) { read := true, write := true, execute := false }
        true).1 = Except.ok () := by
  refine ⟨rfl, rfl, ?_, ?_, rfl⟩
  · rfl
  · rfl

theorem land_lor_vmxe (v : Nat) :
    Nat.land (Nat.lor v CR4_VMXE) NOT_CR4_VMXE = Nat.land v NOT_CR4_VMXE := by
  have h13 : CR4_VMXE = 2 ^ 13 := by decide
  show ((v ||| CR4_VMXE) &&& NOT_CR4_VMXE) = v &&& NOT_CR4_VMXE
  apply Nat.eq_of_testBit_eq
  intro i
  rw [Nat.testBit_land, Nat.testBit_land, Nat.testBit_lor]
  rcases eq_or_ne i 13 with h | h
  · subst h
    have hnot : NOT_CR4_VMXE.testBit 13 = false := by decide
    simp [hnot]
  · have hvm : CR4_VMXE.testBit i = false := by
      rw [h13, Nat.testBit_two_pow]
      simp [Ne.symm h]
    simp [hvm]

/-- C7: on the HVF backend, `set_control_registers` stores CR4 with the VMXE
bit forced on, and `get_control_registers` masks VMXE off: after writing any
value `v` to CR4, the read-back is `v` with VMXE cleared, while the stored
CR4 (register `HV_X86_CR4`) has bit 13 set. -/
theorem C7_cr4_vmxe_forced_and_masked (f : HvRegFile) (v : Nat) :
    macosGetControlRegisters (macosSetControlRegisters f [ControlRegister.Cr4] [v])
        [ControlRegister.Cr4] =
      [Nat.land v NOT_CR4_VMXE] ∧
    Nat.testBit (macosSetControlRegisters f [ControlRegister.Cr4] [v] HvReg.CR4) 13 = true := by
  constructor
  · simp only [macosSetControlRegisters, macosGetControlRegisters, crToHvReg, List.zip_cons_cons,
      List.zip_nil_right, List.foldl_cons, List.foldl_nil, updFun, if_pos, List.nil_append]
    simp [land_lor_vmxe]
  · simp only [macosSetControlRegisters, List.zip_cons_cons, List.zip_nil_right,
      List.foldl_cons, List.foldl_nil, updFun]
    simp only [if_true, eq_self_iff_true, if_pos]
    show (v ||| CR4_VMXE).testBit 13 = true
    rw [Nat.testBit_lor]
    have hvm : CR4_VMXE.testBit 13 = true := by decide
    simp [hvm]

theorem zip_take_len {α β : Type} (rs : List α) (vs : List β) :
    rs.zip vs = (rs.take vs.length).zip vs := by
  induction rs generalizing vs with
  | nil => simp
  | cons r rs ih =>
    cases vs with
    | nil => simp
    | cons v vs => simp [ih vs]

theorem foldl_updFun_frame {α β γ : Type} [DecidableEq α] (key : γ → α) (val : γ → β)
    (ps : List γ) (f : α → β) (x : α) (hx : ∀ p ∈ ps, key p ≠ x) :
    (ps.foldl (fun f p => updFun f (key p) (val p)) f) x = f x := by
  induction ps generalizing f with
  | nil => rfl
  | cons p ps ih =>
    rw [List.foldl_cons, ih _ (fun q hq => hx q (List.mem_cons_of_mem _ hq))]
    have hk : x ≠ key p := Ne.symm (hx p (List.mem_cons_self p ps))
    simp [updFun, hk]

/-- C10: calling the register-write operations with a `registers` slice
longer than the `values` slice returns no error: the iterator `zip`
truncates to the first `values.length` pairs, exactly those are applied, and
any register outside the zipped pairs keeps its old value.  Shown for KVM
`set_registers`, HVF `set_registers`, and KVM `set_msrs` (whose batched
entries and EFER write are likewise built from the zipped pairs only).
The host store calls are modelled as succeeding; the point is that no
length validation exists. -/
theorem C10_extra_registers_ignored
    (regs : KvmRegs) (f : HvRegFile) (rs : List Register) (vs : List Nat)
    (ms mvs : List Nat) (r : Register) (h : HvReg)
    (hr : ∀ p ∈ rs.zip vs, p.1 ≠ r)
    (hh : ∀ p ∈ rs.zip vs, regToHvReg p.1 ≠ h) :
    linuxSetRegisters regs rs vs = Except.ok (kvmApplyRegWrites regs (rs.take vs.length) vs) ∧
    kvmApplyRegWrites regs rs vs r = regs r ∧
    macosSetRegisters f rs vs =
      Except.ok
        (((rs.take vs.length).zip vs).foldl (fun f p => updFun f (regToHvReg p.1) p.2) f) ∧
    ((rs.zip vs).foldl (fun f p => updFun f (regToHvReg p.1) p.2) f) h = f h ∧
    linuxSetMsrs ms mvs = linuxSetMsrs (ms.take mvs.length) mvs := by
  refine ⟨?_, ?_, ?_, ?_, ?_⟩
  · unfold linuxSetRegisters kvmApplyRegWrites
    rw [← zip_take_len]
  · exact foldl_updFun_frame Prod.fst Prod.snd _ _ _ hr
  · unfold macosSetRegisters
    rw [← zip_take_len]
  · exact foldl_updFun_frame (fun p => regToHvReg p.1) Prod.snd _ _ _ hh
  · unfold linuxSetMsrs
    rw [← zip_take_len]

/-- C10, witness: `registers = [Rax, Rbx]` with a single value `[1]`; the
zipped pairs touch only RAX, and RBX keeps its old value. -/
theorem C10_extra_registers_ignored_witness :
    (∀ p ∈ [Register.Rax, Register.Rbx].zip [1], p.1 ≠ Register.Rbx) ∧
    (∀ p ∈ [Register.Rax, Register.Rbx].zip [1], regToHvReg p.1 ≠ HvReg.RBX) ∧
    kvmApplyRegWrites (fun _ => 0) [Register.Rax, Register.Rbx] [1] Register.Rbx =
      (fun _ => (0 : Nat)) Register.Rbx :=
  ⟨(by decide), (by decide),
   (C10_extra_registers_ignored (fun _ => 0) (fun _ => 0) [Register.Rax, Register.Rbx] [1]
      [] [] Register.Rbx HvReg.RBX (by decide) (by decide)).2.1⟩

theorem map_add_add (B : List Nat) (i : Nat) :
    (B.map (· + 1)).map (· + i) = B.map (· + (i + 1)) := by
  induction B with
  | nil => rfl
  | cons b B ih =>
    simp only [List.map_cons, List.cons.injEq]
    exact ⟨by omega, ih⟩

theorem kvmMsrSplit_shift (rs : List Nat) :
    ∀ i, kvmMsrSplit rs i = ((kvmMsrSplit rs 0).1, (kvmMsrSplit rs 0).2.map (· + i)) := by
  induction rs with
  | nil => intro i; simp [kvmMsrSplit]
  | cons r rs ih =>
    intro i
    simp only [kvmMsrSplit]
    by_cases h : r = MSR_IA32_EFER
    · simp only [if_pos h]
      rw [ih (i + 1), ih 1]
      simp only [List.map_cons, Nat.zero_add, map_add_add]
    · simp only [if_neg h]
      rw [ih (i + 1), ih 1]
      simp only [map_add_add]

theorem foldl_insertIdx_shift {α : Type} (idxs : List Nat) (e a : α) (base : List α) :
    (idxs.map (· + 1)).foldl (fun vs i => vs.insertIdx i e) (a :: base) =
      a :: idxs.foldl (fun vs i => vs.insertIdx i e) base := by
  induction idxs generalizing base with
  | nil => rfl
  | cons j js ih =>
    simp only [List.map_cons, List.foldl_cons, List.insertIdx_succ_cons]
    exact ih _

theorem linuxGetMsrs_ordered (hostMsr : Nat → Nat) (eferValue : Nat) (rs : List Nat) :
    linuxGetMsrs hostMsr eferValue rs =
      rs.map (fun r => if r = MSR_IA32_EFER then eferValue else hostMsr r) := by
  induction rs with
  | nil => rfl
  | cons r rs ih =>
    unfold linuxGetMsrs at ih ⊢
    simp only [kvmMsrSplit, List.map_cons]
    by_cases h : r = MSR_IA32_EFER
    · simp only [if_pos h]
      rw [kvmMsrSplit_shift rs 1]
      simp only [List.foldl_cons, List.insertIdx_zero]
      rw [foldl_insertIdx_shift, ih]
    · simp only [if_neg h]
      rw [kvmMsrSplit_shift rs 1]
      simp only [List.map_cons]
      rw [foldl_insertIdx_shift, ih]

theorem getLast?_cons_or {α : Type} (v : α) (l : List α) (e : Option α) :
    ((v :: l).getLast?).or e = (l.getLast?).or (some v) := by
  cases hl : l.getLast? with
  | none => simp [List.getLast?_cons, hl]
  | some x => simp [List.getLast?_cons, hl]

theorem kvmSetMsrsLoop_spec (ps : List (Nat × Nat)) :
    ∀ acc e, kvmSetMsrsLoop ps acc e =
      (acc ++ ps.filter (fun p => p.1 != MSR_IA32_EFER),
       (((ps.filter (fun p => p.1 == MSR_IA32_EFER)).map Prod.snd).getLast?).or e) := by
  induction ps with
  | nil => intro acc e; simp [kvmSetMsrsLoop]
  | cons p ps ih =>
    intro acc e
    obtain ⟨r, v⟩ := p
    simp only [kvmSetMsrsLoop]
    by_cases h : r = MSR_IA32_EFER
    · subst h
      rw [if_pos rfl, ih]
      simp [List.filter_cons, getLast?_cons_or]
    · rw [if_neg h, ih]
      simp [List.filter_cons, h, List.append_assoc]

/-- C8: KVM MSR marshalling.  `get_msrs` returns exactly one value per
requested MSR number, in input order: the value is `sregs.efer` at every
position where `MSR_IA32_EFER` was requested and the batched host value
elsewhere.  Symmetrically, `set_msrs` sends exactly the non-EFER zipped
pairs (in order) to the batched call and routes the (last) EFER value to
`sregs.efer`. -/
theorem C8_msr_order_preserved (hostMsr : Nat → Nat) (eferValue : Nat)
    (rs ws vs : List Nat) :
    linuxGetMsrs hostMsr eferValue rs =
      rs.map (fun r => if r = MSR_IA32_EFER then eferValue else hostMsr r) ∧
    (linuxGetMsrs hostMsr eferValue rs).length = rs.length ∧
    (linuxSetMsrs ws vs).1 = (ws.zip vs).filter (fun p => p.1 != MSR_IA32_EFER) ∧
    (linuxSetMsrs ws vs).2 =
      (((ws.zip vs).filter (fun p => p.1 == MSR_IA32_EFER)).map Prod.snd).getLast? := by
  refine ⟨linuxGetMsrs_ordered hostMsr eferValue rs, ?_, ?_, ?_⟩
  · rw [linuxGetMsrs_ordered]
    exact List.length_map rs _
  · unfold linuxSetMsrs
    rw [kvmSetMsrsLoop_spec]
    simp
  · unfold linuxSetMsrs
    rw [kvmSetMsrsLoop_spec]
    simp

/-- C6 (amended): after the facade `Vcpu::reset()` on x86-64, the read-back
vCPU state has CS with selector 0xF000, base 0xFFFF_0000 and limit 0xFFFF
(not 0xFFFFF — src/vcpu.rs writes `limit: 0xffff`), RIP = 0xFFF0,
RFLAGS = 0x0002, and SS/DS/ES/FS/GS flat with base 0 and limit 0xFFFF; shown
for the KVM and HVF backends, from any prior vCPU state. -/
theorem C6_reset_read_back (regs : KvmRegs) (sregs : KvmSregs) (f : HvRegFile)
    (g : MacVmcsSegs) :
    (facadeResetKvm regs sregs).1 Register.Rip = 0xfff0 ∧
    (facadeResetKvm regs sregs).1 Register.Rflags = 0x0002 ∧
    linuxGetSegmentRegisters (facadeResetKvm regs sregs).2
        [SegmentRegister.Cs, SegmentRegister.Ss, SegmentRegister.Ds, SegmentRegister.Es,
         SegmentRegister.Fs, SegmentRegister.Gs] =
      [resetCodeSegment, resetDataSegment, resetDataSegment, resetDataSegment,
       resetDataSegment, resetDataSegment] ∧
    (facadeResetMacos f g).1 HvReg.RIP = 0xfff0 ∧
    (facadeResetMacos f g).1 HvReg.RFLAGS = 0x0002 ∧
    macosGetSegmentRegisters (facadeResetMacos f g).2
        [SegmentRegister.Cs, SegmentRegister.Ss, SegmentRegister.Ds, SegmentRegister.Es,
         SegmentRegister.Fs, SegmentRegister.Gs] =
      [resetCodeSegment, resetDataSegment, resetDataSegment, resetDataSegment,
       resetDataSegment, resetDataSegment] ∧
    resetCodeSegment.selector = 0xf000 ∧
    resetCodeSegment.base = 0xffff0000 ∧
    resetCodeSegment.limit = 0xffff ∧
    resetDataSegment.base = 0 ∧
    resetDataSegment.limit = 0xffff := by
  refine ⟨rfl, rfl, rfl, rfl, rfl, ?_, rfl, rfl, rfl, rfl, rfl⟩
  unfold macosGetSegmentRegisters facadeResetMacos macosSetSegmentRegisters resetSegmentPairs
    resetRegisterPairs updFun macosDecodeSeg macosEncodeAccessRights b2n resetCodeSegment
    resetDataSegment
  simp
  decide

/-- C6, counterexample to the claim as stated: starting from the all-zero
vCPU state, the CS limit read back after the facade reset is 0xFFFF, not the
0xFFFFF the claim requires (the HVF-internal reset run at vCPU creation does
write 0xF_FFFF, but the public `reset()` overwrites it with 0xFFFF). -/
theorem C6_reset_read_back_counterexample :
    ((linuxGetSegmentRegisters
        (facadeResetKvm (fun _ => 0) { segs := fun _ => {} }).2
        [SegmentRegister.Cs]).map Segment.limit) = [0xffff] ∧
    (0xffff : Nat) ≠ 0xfffff := by
  exact ⟨rfl, by decide⟩

theorem rmGetKeyValue_single (lo hi v k : Nat) (h1 : lo ≤ k) (h2 : k < hi) :
    rmGetKeyValue [(lo, hi, v)] k = some (lo, hi, v) := by
  unfold rmGetKeyValue
  exact List.find?_cons_of_pos _ (by simp [h1, h2])

theorem hmGet_single {α : Type} (k : Nat) (v : α) : hmGet [(k, v)] k = some v := by
  unfold hmGet
  rw [List.find?_cons_of_pos _ (by simp)]
  rfl

theorem hmGet_insert {α : Type} (m : List (Nat × α)) (k : Nat) (v : α) :
    hmGet (hmInsert m k v) k = some v := by
  unfold hmGet hmInsert
  rw [List.find?_cons_of_pos _ (by simp)]
  rfl

theorem hmInsert_single {α : Type} (k : Nat) (v w : α) :
    hmInsert [(k, v)] k w = [(k, w)] := by
  unfold hmInsert
  simp

/-- C5: after `allocate_physical_memory(gpa, size, prot)` (on a fresh KVM
VM), for any offset `k < size` and a buffer `buf` of arbitrary length —
in particular one extending past the region end:
`read_physical_memory(buf, gpa + k)` copies exactly
`min(buf.len(), size - k)` bytes (zeros of the fresh mapping), saturating at
the region end, into the head of `buf` and returns that count;
`write_physical_memory(gpa + k, buf)` places exactly the first
`min(buf.len(), size - k)` bytes of `buf` at offset `k` of the backing
mapping — the bytes past the region end are dropped — and returns that
count; and for `data`/`out` buffers that fit in the remaining region, a read
directly after the write at the same address returns exactly the written
bytes. -/
theorem C5_read_write_saturating_roundtrip
    (gpa size k : Nat) (buf out data : List Nat) (prot : ProtectionFlags)
    (h64 : gpa + size < 2 ^ 64) (hk : k < size)
    (hd : data.length ≤ size - k) (ho : out.length = data.length) :
    (linuxAllocatePhysicalMemory linuxVmNew gpa size prot true).1 = Except.ok () ∧
    linuxReadPhysicalMemory (linuxAllocatePhysicalMemory linuxVmNew gpa size prot true).2
        buf (gpa + k) =
      Except.ok (min buf.length (size - k),
        List.replicate (min buf.length (size - k)) 0 ++
          buf.drop (min buf.length (size - k))) ∧
    linuxWritePhysicalMemory (linuxAllocatePhysicalMemory linuxVmNew gpa size prot true).2
        (gpa + k) buf =
      Except.ok (min buf.length (size - k),
        { segments :=
            [(gpa,
              { mapping :=
                  List.replicate k 0 ++ buf.take (min buf.length (size - k)) ++
                    List.replicate (size - (k + min buf.length (size - k))) 0,
                region :=
                  { slot := 0, guest_phys_addr := gpa, userspace_addr := 0,
                    memory_size := size,
                    flags := if prot.write then 0 else KVM_MEM_READONLY } })],
          physical_ranges := [(gpa, gpa + size, gpa)],
          available_slots := [] }) ∧
    ((linuxWritePhysicalMemory (linuxAllocatePhysicalMemory linuxVmNew gpa size prot true).2
        (gpa + k) data).toOption.map
      (fun r => linuxReadPhysicalMemory r.2 out (gpa + k))) =
      some (Except.ok (data.length, data)) := by
  have halloc : linuxAllocatePhysicalMemory linuxVmNew gpa size prot true =
      (Except.ok (),
        { segments :=
            [(gpa,
              { mapping := List.replicate size 0,
                region :=
                  { slot := 0, guest_phys_addr := gpa, userspace_addr := 0,
                    memory_size := size,
                    flags := if prot.write then 0 else KVM_MEM_READONLY } })],
          physical_ranges := [(gpa, gpa + size, gpa)],
          available_slots := [] }) := by
    have h64' : gpa + size < 18446744073709551616 := by simpa using h64
    unfold linuxAllocatePhysicalMemory linuxMapPhysicalMemory linuxVmNew
    simp [hmInsert, rmInsert, rmClip, u64add, Nat.mod_eq_of_lt h64']
  have e1 : gpa + k - gpa = k := by omega
  have e2 : gpa + size - (gpa + k) = size - k := by omega
  refine ⟨by rw [halloc], ?_, ?_, ?_⟩
  · rw [halloc]
    unfold linuxReadPhysicalMemory
    dsimp only
    rw [rmGetKeyValue_single gpa (gpa + size) gpa (gpa + k) (by omega) (by omega)]
    dsimp only
    rw [hmGet_single]
    dsimp only
    rw [e1, e2]
    rw [List.drop_replicate, List.take_replicate, Nat.min_comm (size - k) buf.length]
    have h3 : min (min buf.length (size - k)) (size - k) = min buf.length (size - k) := by
      omega
    rw [h3]
  · rw [halloc]
    unfold linuxWritePhysicalMemory
    dsimp only
    rw [rmGetKeyValue_single gpa (gpa + size) gpa (gpa + k) (by omega) (by omega)]
    dsimp only
    rw [hmGet_single]
    dsimp only
    rw [e1, e2, Nat.min_comm (size - k) buf.length]
    rw [hmInsert_single]
    rw [List.take_replicate, List.drop_replicate]
    have hmk : min k size = k := by omega
    rw [hmk]
  · have hdl : min (size - k) data.length = data.length := Nat.min_eq_right hd
    rw [halloc]
    unfold linuxWritePhysicalMemory
    dsimp only
    rw [rmGetKeyValue_single gpa (gpa + size) gpa (gpa + k) (by omega) (by omega)]
    dsimp only
    rw [hmGet_single]
    dsimp only
    rw [e1, e2, hdl]
    dsimp only [Except.toOption, Option.map]
    unfold linuxReadPhysicalMemory
    dsimp only
    rw [rmGetKeyValue_single gpa (gpa + size) gpa (gpa + k) (by omega) (by omega)]
    dsimp only
    rw [hmGet_insert]
    dsimp only
    rw [e1, e2]
    have hsz : min (size - k) out.length = data.length := by omega
    rw [hsz]
    rw [List.take_length]
    rw [List.take_replicate]
    have hmk : min k size = k := by omega
    rw [hmk, List.append_assoc]
    rw [List.drop_left' (by simp)]
    rw [List.take_left' rfl]
    have hout : out.drop data.length = [] := by
      rw [← ho]
      exact List.drop_length out
    rw [hout, List.append_nil]

/-- C5, witness: a fresh 0x20-byte region at GPA 0x100.  A 0x20-byte read
buffer at offset 0x10 extends 0x10 bytes past the region end: the read
saturates, filling only the first 0x10 bytes and returning 0x10, not the
buffer length.  And writing `[1, 2, 3]` at offset 0x10 then reading 3 bytes
back returns exactly `[1, 2, 3]`. -/
theorem C5_read_write_saturating_roundtrip_witness :
    (0x100 + 0x20 < 2 ^ 64) ∧ (0x10 < 0x20) ∧
    ([1, 2, 3] : List Nat).length ≤ 0x20 - 0x10 ∧
    ([9, 9, 9] : List Nat).length = ([1, 2, 3] : List Nat).length ∧
    (0x20 - 0x10 : Nat) < (List.replicate 0x20 7 : List Nat).length ∧
    linuxReadPhysicalMemory
        (linuxAllocatePhysicalMemory linuxVmNew 0x100 0x20
          { read := true, write := true, execute := false } true).2
        (List.replicate 0x20 7) (0x100 + 0x10) =
      Except.ok (0x10, List.replicate 0x10 0 ++ (List.replicate 0x20 7).drop 0x10) ∧
    ((linuxWritePhysicalMemory
        (linuxAllocatePhysicalMemory linuxVmNew 0x100 0x20
          { read := true, write := true, execute := false } true).2
        (0x100 + 0x10) [1, 2, 3]).toOption.map
      (fun r => linuxReadPhysicalMemory r.2 [9, 9, 9] (0x100 + 0x10))) =
      some (Except.ok (3, [1, 2, 3])) :=
  ⟨(by decide), (by decide), (by decide), (by decide), (by decide),
   (C5_read_write_saturating_roundtrip 0x100 0x20 0x10 (List.replicate 0x20 7)
      [9, 9, 9] [1, 2, 3] { read := true, write := true, execute := false }
      (by decide) (by decide) (by decide) (by decide)).2.1,
   (C5_read_write_saturating_roundtrip 0x100 0x20 0x10 (List.replicate 0x20 7)
      [9, 9, 9] [1, 2, 3] { read := true, write := true, execute := false }
      (by decide) (by decide) (by decide) (by decide)).2.2.2⟩

end HyRs
